import Mathlib

/-!
Verification of the version/flattening model and lifecycle patterns of the
ConcourseTools repository (concoursetools/version.py, concoursetools/additional.py,
concoursetools/parsing.py), as a shallow embedding in Lean 4.

Python machine-level notions (exception kinds, decimal string conversion,
class attribute resolution, hashability) are embedded explicitly where the
code under verification relies on them.
-/

namespace ConcourseTools

/-- Python exception kinds raised by the embedded code paths. -/
inductive PyErr where
  | typeError (msg : String)
  | valueError (msg : String)
  | keyError (msg : String)
  | runtimeError (msg : String)
  | attributeError (msg : String)
deriving DecidableEq, Repr

/-! ### Decimal conversion: the Python builtins str(int) and int(str)

The default flatten function is str, and the registered datetime codec is
str(int(obj.timestamp())) / type_.fromtimestamp(int(obj)).  Both rely on
decimal printing and parsing of integers, embedded here.  int(s) is modelled
on canonical decimal inputs (an optional leading minus sign followed by
decimal digits); surrounding whitespace, underscores and a leading plus sign
accepted by Python are not modelled, as the code only ever parses strings
previously produced by str. -/

/-- Map a digit value 0..9 to its decimal character. -/
def digitChar : Nat → Char
  | 0 => '0' | 1 => '1' | 2 => '2' | 3 => '3' | 4 => '4'
  | 5 => '5' | 6 => '6' | 7 => '7' | 8 => '8' | _ => '9'

/-- Decimal value of a character, or none when the character is not a digit. -/
def decDigitVal (c : Char) : Option Nat :=
  if 48 ≤ c.toNat && c.toNat ≤ 57 then some (c.toNat - 48) else none

/-- Little-endian decimal digits of a natural number; fuel-based recursion. -/
def natDecimalAux : Nat → Nat → List Char
  | 0, _ => []
  | fuel + 1, n => if n = 0 then [] else digitChar (n % 10) :: natDecimalAux fuel (n / 10)

/-- Decimal representation of a natural number, as produced by the Python builtin str. -/
def natToDecimal (n : Nat) : String :=
  if n = 0 then "0" else ⟨(natDecimalAux n n).reverse⟩

/-- Accumulating decimal parse of a big-endian character list. -/
def parseNatAux : List Char → Nat → Option Nat
  | [], acc => some acc
  | c :: cs, acc =>
    match decDigitVal c with
    | none => none
    | some d => parseNatAux cs (acc * 10 + d)

/-- The Python builtin str applied to an int. -/
def pyStrOfInt (i : Int) : String :=
  if i < 0 then "-" ++ natToDecimal i.natAbs else natToDecimal i.natAbs

/-- The Python builtin int applied to a canonical decimal string; none models ValueError. -/
def pyIntOfString (s : String) : Option Int :=
  match s.data with
  | [] => none
  | c :: cs =>
    if c = '-' then
      if cs.isEmpty then none
      else (parseNatAux cs 0).map (fun n => -(n : Int))
    else (parseNatAux (c :: cs) 0).map (fun n => (n : Int))

/-! ### version.py: the base Version class

Version.__eq__ compares hashes, and Version.__hash__ combines the hash of the
tuple of sorted flattened pairs with the hash of the concrete type using
bitwise OR (version.py lines 59-65).  CPython hash values of tuples of strings
and of type objects are unspecified (and seed-randomised), so both primitive
hash functions are parameters of the model. -/

/-- Python ordering of (str, str) tuples: lexicographic. -/
def pyPairLe (a b : String × String) : Prop :=
  a.1 < b.1 ∨ (a.1 = b.1 ∧ a.2 ≤ b.2)

instance : DecidableRel pyPairLe := fun a b =>
  inferInstanceAs (Decidable (a.1 < b.1 ∨ (a.1 = b.1 ∧ a.2 ≤ b.2)))

/-- The expression sorted(flat_dict.items()) in Version.__hash__. -/
def sortFlatPairs (l : List (String × String)) : List (String × String) :=
  l.insertionSort pyPairLe

/-- Version.__hash__: hash(sorted_flat_pairs) | hash(type(self)).
The primitive hashes of the pair tuple and of the type object are abstract
parameters; the combination is bitwise OR, exactly as in the source. -/
def versionHashPy (hashPairs : List (String × String) → Int) (hashType : String → Int)
    (tyName : String) (flat : List (String × String)) : Int :=
  Int.lor (hashPairs (sortFlatPairs flat)) (hashType tyName)

/-- Version.__eq__: hash(self) == hash(other), with each hash computed from the
concrete type of the instance and its to_flat_dict output. -/
def versionEqPy (hashPairs : List (String × String) → Int) (hashType : String → Int)
    (tyName1 : String) (flat1 : List (String × String))
    (tyName2 : String) (flat2 : List (String × String)) : Bool :=
  versionHashPy hashPairs hashType tyName1 flat1 == versionHashPy hashPairs hashType tyName2 flat2

/-- A version instance under the default (string-valued) Version implementation:
the concrete subclass, tagged by name, plus the attribute dict in insertion
order.  The default from_flat_dict feeds the flat dict to the initialiser as
keyword arguments; the faithful default initialiser stores them verbatim. -/
structure DefaultVersion where
  tyName : String
  fields : List (String × String)
deriving DecidableEq, Repr

/-- The Python test key.startswith("_") for the one-character prefix: true
exactly when the first character is an underscore. -/
def pyStartsWithUnderscore (s : String) : Bool :=
  match s.data with
  | [] => false
  | c :: _ => c = '_'

/-- Version.to_flat_dict default implementation: public attributes, keys and
values cast to str (the identity on strings). -/
def defaultToFlatDict (v : DefaultVersion) : List (String × String) :=
  v.fields.filter (fun kv => !pyStartsWithUnderscore kv.1)

/-- Version.from_flat_dict default implementation: cls(**version_dict), with
the initialiser storing each keyword argument verbatim. -/
def defaultFromFlatDict (tyName : String) (d : List (String × String)) : DefaultVersion :=
  ⟨tyName, d⟩

/-- Python equality between two DefaultVersion instances (hash comparison over
their default flat dicts). -/
def defaultVersionEq (hashPairs : List (String × String) → Int) (hashType : String → Int)
    (v1 v2 : DefaultVersion) : Bool :=
  versionEqPy hashPairs hashType v1.tyName (defaultToFlatDict v1) v2.tyName (defaultToFlatDict v2)

/-! ### version.py: TypedVersion

Attribute values of a TypedVersion instance and their declared type hints.
Values carry enough structure for the flatten/un-flatten codecs registered at
module import time (un_flatten for bool, flatten and un_flatten for datetime
and for Enum, version.py lines 348-370); datetimes are modelled at second
granularity by their integer Unix timestamp. -/

inductive PyType where
  | strT
  | boolT
  | intT
  | datetimeT
  | enumT (ename : String) (members : List String)
deriving DecidableEq, Repr

inductive PyVal where
  | vstr (s : String)
  | vbool (b : Bool)
  | vint (n : Int)
  | vdatetime (ts : Int)
  | venum (ename : String) (member : String)
deriving DecidableEq, Repr

/-- Whether a runtime value is an instance of a declared type (an Enum member
must be one of the declared members of its enum class). -/
def hasPyType : PyVal → PyType → Bool
  | .vstr _, .strT => true
  | .vbool _, .boolT => true
  | .vint _, .intT => true
  | .vdatetime _, .datetimeT => true
  | .venum e _m, .enumT e2 members => e == e2 && members.contains _m
  | _, _ => false

/-- TypedVersion._flatten_object with the registry as populated at
module-import time: the datetime codec (str(int(obj.timestamp()))) and the Enum codec
(obj.name) are registered; everything else falls back to str. -/
def flattenObject : PyVal → String
  | .vstr s => s
  | .vbool b => if b then "True" else "False"
  | .vint n => pyStrOfInt n
  | .vdatetime ts => pyStrOfInt ts
  | .venum _ m => m

/-- TypedVersion._un_flatten_object with the registry as populated at
module-import time: bool decodes by exact comparison with "True", datetime via
fromtimestamp(int(obj)), Enum via name lookup; str and int use the default
single-argument constructor call. -/
def unflattenObject : PyType → String → Except PyErr PyVal
  | .strT, s => .ok (.vstr s)
  | .boolT, s => .ok (.vbool (s == "True"))
  | .intT, s =>
    match pyIntOfString s with
    | some n => .ok (.vint n)
    | none => .error (.valueError ("invalid literal for int: " ++ s))
  | .datetimeT, s =>
    match pyIntOfString s with
    | some n => .ok (.vdatetime n)
    | none => .error (.valueError ("invalid literal for int: " ++ s))
  | .enumT e members, s =>
    if members.contains s then .ok (.venum e s) else .error (.keyError s)

/-- A concrete TypedVersion subclass: its resolved type hints, in declaration
order (get_type_hints). -/
structure TVClass where
  annots : List (String × PyType)
deriving DecidableEq, Repr

/-- A TypedVersion instance: its attribute dict, in dataclass field order. -/
structure TVInstance where
  fields : List (String × PyVal)
deriving DecidableEq, Repr

/-- TypedVersion.to_flat_dict: public attributes, each value flattened through
the registry dispatch. -/
def tvToFlatDict (v : TVInstance) : List (String × String) :=
  v.fields.filterMap (fun kv =>
    if pyStartsWithUnderscore kv.1 then none else some (kv.1, flattenObject kv.2))

/-- The dict comprehension in TypedVersion.from_flat_dict: un-flatten every
value of the incoming flat dict according to the declared attribute type;
a key without a type hint raises KeyError (via _get_attribute_type). -/
def tvUnflattenKwargs (cls : TVClass) : List (String × String) → Except PyErr (List (String × PyVal))
  | [] => .ok []
  | (k, s) :: rest =>
    match cls.annots.lookup k with
    | none => .error (.keyError k)
    | some ty => do
      let v ← unflattenObject ty s
      let tail ← tvUnflattenKwargs cls rest
      .ok ((k, v) :: tail)

/-- The dataclass-generated initialiser called by super().from_flat_dict, i.e.
cls(**kwargs): every declared field must be supplied and no unknown keyword is
accepted (TypeError otherwise); attributes are set in declaration order. -/
def dataclassInit (cls : TVClass) (kwargs : List (String × PyVal)) : Except PyErr TVInstance :=
  if (cls.annots.all fun a => (kwargs.lookup a.1).isSome) &&
     (kwargs.all fun kv => (cls.annots.lookup kv.1).isSome) then
    .ok ⟨cls.annots.map fun a => (a.1, (kwargs.lookup a.1).getD (.vstr ""))⟩
  else
    .error (.typeError "unexpected or missing keyword arguments for dataclass initialiser")

/-- A faithful concrete TypedVersion subclass presented as one declaration
list: field name, declared type and the runtime value of one instance.  The
class is the projection to the type hints, the instance the projection to the
attribute dict. -/
def tvClassOf (decl : List (String × PyType × PyVal)) : TVClass :=
  ⟨decl.map (fun e => (e.1, e.2.1))⟩

def tvInstanceOf (decl : List (String × PyType × PyVal)) : TVInstance :=
  ⟨decl.map (fun e => (e.1, e.2.2))⟩

/-- TypedVersion.from_flat_dict: un-flatten the values, then delegate to the
base implementation (the initialiser call). -/
def tvFromFlatDict (cls : TVClass) (d : List (String × String)) : Except PyErr TVInstance := do
  let kwargs ← tvUnflattenKwargs cls d
  dataclassInit cls kwargs

/-- TypedVersion.__init_subclass__ (version.py lines 260-267): the annotations
dict of the class body itself (vars(cls), no MRO lookup), absent when the body
declares no annotated fields; an empty annotations dict raises TypeError at
class-definition time. -/
def typedVersionInitSubclass (ownAnnots : Option (List String)) : Except PyErr Unit :=
  let annots := ownAnnots.getD []
  if annots.length = 0 then
    .error (.typeError "cannot instantiate dataclass TypedVersion without any fields")
  else
    .ok ()

/-! ### version.py: the shared flatten/un-flatten registries

_flatten_functions and _un_flatten_functions are ClassVar attributes created
once in the body of TypedVersion (version.py lines 257-258).  Python resolves
a class attribute by walking the MRO and returning the first class whose own
dict binds the name; item assignment on the result mutates that same object.
The model makes the heap of _TypeKeyDict objects explicit: classes are named,
ownRegAddr gives the address bound in the own dict of a class (if any), and
registration/lookup resolve the attribute along the MRO before touching the
heap. -/

/-- Registry contents of one _TypeKeyDict object: type name to function id. -/
abbrev Registry := List (String × Nat)

/-- A heap of _TypeKeyDict objects, addressed by number. -/
structure RegHeap where
  cells : List (Nat × Registry)
deriving DecidableEq, Repr

def heapGet (h : RegHeap) (a : Nat) : Registry :=
  (h.cells.lookup a).getD []

def heapSet (h : RegHeap) (a : Nat) (r : Registry) : RegHeap :=
  ⟨(a, r) :: h.cells.filter (fun c => c.1 ≠ a)⟩

/-- Python class-attribute resolution of _flatten_functions along an MRO:
the first class whose own dict binds the attribute wins. -/
def resolveRegAddr (ownRegAddr : String → Option Nat) : List String → Option Nat
  | [] => none
  | c :: rest =>
    match ownRegAddr c with
    | some a => some a
    | none => resolveRegAddr ownRegAddr rest

/-- _TypeKeyDict.__setitem__: store under the first entry of the MRO of the
key type, i.e. the type itself; a plain dict update. -/
def regInsert (r : Registry) (ty : String) (f : Nat) : Registry :=
  (ty, f) :: r.filter (fun kv => kv.1 ≠ ty)

/-- _TypeKeyDict.__getitem__: walk the MRO of the looked-up type, returning
the first registered entry. -/
def regLookup (r : Registry) : List String → Option Nat
  | [] => none
  | t :: rest =>
    match r.lookup t with
    | some f => some f
    | none => regLookup r rest

/-- TypedVersion.flatten called through a class: resolve cls._flatten_functions
along the MRO of the class, then perform item assignment on the resolved object. -/
def registerFlattenVia (ownRegAddr : String → Option Nat) (mro : List String)
    (h : RegHeap) (ty : String) (f : Nat) : Option RegHeap :=
  (resolveRegAddr ownRegAddr mro).map
    (fun a => heapSet h a (regInsert (heapGet h a) ty f))

/-- The registry dispatch of _flatten_object through a class: resolve
cls._flatten_functions along the MRO of the class, then look the type of the value up
in the resolved registry. -/
def lookupFlattenVia (ownRegAddr : String → Option Nat) (mro : List String)
    (h : RegHeap) (valueMro : List String) : Option Nat := do
  let a ← resolveRegAddr ownRegAddr mro
  regLookup (heapGet h a) valueMro

/-! ### additional.py: TriggerOnChangeConcourseResource -/

/-- TriggerOnChangeConcourseResource.fetch_new_versions (additional.py lines
161-171), with fetch_latest_version returning latest and version equality
abstract (Version.__eq__ for the version class at hand). -/
def triggerOnChangeFetchNewVersions {V : Type} (eqFn : V → V → Bool)
    (latest : V) (previous : Option V) : List V :=
  match previous with
  | none => [latest]
  | some p => if eqFn latest p then [p] else [p, latest]

/-! ### additional.py: SelfOrganisingConcourseResource -/

/-- The Python builtin max over an iterable: the first element, replaced
whenever a later element compares strictly greater; ValueError (modelled by
none) on an empty iterable. -/
def pyMax {V : Type} [LinearOrder V] : List V → Option V
  | [] => none
  | x :: xs => some (xs.foldl (fun a b => if a < b then b else a) x)

/-- SelfOrganisingConcourseResource.fetch_new_versions (additional.py lines
348-364).  fetch_all_versions returns the set allVersions, modelled as a list
in iteration order; versions are totally ordered (SortableVersionMixin), so
the RuntimeError branch for failed comparisons is unreachable and the caught
ValueError from max() on an empty set yields the early empty return. -/
def selfOrganisingFetchNewVersions {V : Type} [LinearOrder V]
    (allVersions : List V) (previous : Option V) : List V :=
  match pyMax allVersions with
  | none => []
  | some newest =>
    match previous with
    | none => [newest]
    | some p =>
      let versions := (allVersions.filter (fun v => decide (p < v))).insertionSort (· ≤ ·)
      if versions.isEmpty then [p] else versions

/-! ### additional.py: MultiVersion -/

/-- Escape of one character inside a JSON string, as json.dumps performs it
for the quote and backslash characters (other escapes do not arise for the
version payloads modelled here). -/
def jsonEscapeChar (c : Char) : String :=
  if c = '"' then "\\\"" else if c = '\\' then "\\\\" else String.singleton c

/-- A JSON string literal as produced by json.dumps. -/
def jsonEncodeStr (s : String) : String :=
  "\"" ++ String.join (s.data.map jsonEscapeChar) ++ "\""

/-- A JSON object with string values as produced by json.dumps with default
separators. -/
def jsonEncodeDict (d : List (String × String)) : String :=
  "\x7b" ++ String.intercalate ", "
    (d.map fun kv => jsonEncodeStr kv.1 ++ ": " ++ jsonEncodeStr kv.2) ++ "\x7d"

/-- A JSON array of objects as produced by json.dumps with default separators. -/
def jsonEncodeDictList (l : List (List (String × String))) : String :=
  "[" ++ String.intercalate ", " (l.map jsonEncodeDict) ++ "]"

/-- MultiVersion.sub_version_data (additional.py lines 213-221): the
sub-versions sorted by their natural ordering, each flattened.  The stored set
is modelled as a list in iteration order; subFlat is the to_flat_dict of the
sub-version class. -/
def multiVersionSubData {V : Type} [LinearOrder V]
    (subFlat : V → List (String × String)) (versions : List V) : List (List (String × String)) :=
  (versions.insertionSort (· ≤ ·)).map subFlat

/-- MultiVersion.to_flat_dict (additional.py lines 223-232): a single pair
mapping the configured key to the JSON-encoded sorted sub-version data. -/
def multiVersionToFlatDict {V : Type} [LinearOrder V] (key : String)
    (subFlat : V → List (String × String)) (versions : List V) : List (String × String) :=
  [(key, jsonEncodeDictList (multiVersionSubData subFlat versions))]

/-! ### additional.py: MultiVersion hashability

MultiVersion defines __eq__ (additional.py lines 200-201) and does not define
__hash__.  The Python data model sets __hash__ to None in a class that
overrides __eq__ without defining __hash__, and calling hash() on an instance
whose class has a None hash slot raises TypeError.  The slot computation and
the hash call are embedded below. -/

/-- The methods a class body defines that are relevant to hashability. -/
structure PyClassBody where
  definesEq : Bool
  definesHash : Bool
deriving DecidableEq, Repr

/-- Whether the class has a usable __hash__ slot: defining __eq__ without
__hash__ sets the slot to None (false); otherwise the own or inherited slot
applies. -/
def classHashSlot (body : PyClassBody) (inheritedSlot : Bool) : Bool :=
  if body.definesHash then true
  else if body.definesEq then false
  else inheritedSlot

/-- The class body of MultiVersion: __eq__ defined, __hash__ not. -/
def multiVersionClassBody : PyClassBody :=
  { definesEq := true, definesHash := false }

/-- The class body of the base Version: both __eq__ and __hash__ defined. -/
def versionClassBody : PyClassBody :=
  { definesEq := true, definesHash := true }

/-- The hash() builtin applied to an instance of a class with the given hash
slot: TypeError when the slot is None. -/
def pyHashCall (slot : Bool) : Except PyErr Unit :=
  if slot then .ok () else .error (.typeError "unhashable type")

/-! ### additional.py: combine_resource_types -/

/-- Remove the first binding of a key from an association list, returning the
value and the remainder; models dict.pop on a dict (whose keys are unique). -/
def popKey (key : String) : List (String × String) → Option (String × List (String × String))
  | [] => none
  | (k, v) :: rest =>
    if k = key then some (v, rest)
    else (popKey key rest).map (fun p => (p.1, (k, v) :: p.2))

/-- _PseudoConcourseResource.__new__ (additional.py lines 380-383): raises
TypeError unconditionally. -/
def pseudoResourceNew (clsName : String) : Except PyErr Unit :=
  .error (.typeError ("Cannot instantiate a " ++ clsName ++ " type"))

/-- MultiResourceConcourseResource._from_resource_config (additional.py lines
424-437): pop the flag key (ValueError when absent), look the delegate up in
the supplied resource mapping (KeyError when unknown), and return the chosen
delegate class together with the remaining config for its constructor. -/
def fromResourceConfig (resources : List (String × String)) (paramKey : String)
    (resourceConfig : List (String × String)) : Except PyErr (String × List (String × String)) :=
  match popKey paramKey resourceConfig with
  | none => .error (.valueError ("Missing flag: " ++ paramKey))
  | some (resourceKey, rest) =>
    match resources.lookup resourceKey with
    | none => .error (.keyError ("Could not find resource matching " ++ resourceKey))
    | some resourceClass => .ok (resourceClass, rest)

/-! ### parsing.py: payload extraction

A parsed JSON payload is modelled by the state of its three top-level keys:
each is absent, JSON null, or an object (a string-keyed mapping; the values
relevant to the claims are strings, on which the str() coercions performed by
the extraction helpers are the identity). -/

inductive JField where
  | absent
  | nullv
  | obj (entries : List (String × String))
deriving DecidableEq, Repr

structure Payload where
  source : JField
  version : JField
  params : JField
deriving DecidableEq, Repr

/-- _extract_source_config_from_payload (parsing.py lines 261-275): a missing
key raises RuntimeError; an explicit null yields an empty config (the
AttributeError from iterating None is caught); an object is copied with its
keys coerced to str. -/
def extractSourceConfig (p : Payload) : Except PyErr (List (String × String)) :=
  match p.source with
  | .absent => .error (.runtimeError "Could not extract source from payload")
  | .nullv => .ok []
  | .obj entries => .ok entries

/-- _extract_version_config_from_payload (parsing.py lines 278-282): a missing
key raises KeyError (left to the caller); a null value raises AttributeError
when iterated; an object is copied with keys and values coerced to str. -/
def extractVersionConfig (p : Payload) : Except PyErr (List (String × String)) :=
  match p.version with
  | .absent => .error (.keyError "version")
  | .nullv => .error (.attributeError "NoneType object has no attribute items")
  | .obj entries => .ok entries

/-- _extract_param_config_from_payload (parsing.py lines 285-289): a missing
key defaults to an empty mapping via dict.get; a null value raises
AttributeError when iterated; an object is copied. -/
def extractParamConfig (p : Payload) : Except PyErr (List (String × String)) :=
  match p.params with
  | .absent => .ok []
  | .nullv => .error (.attributeError "NoneType object has no attribute items")
  | .obj entries => .ok entries

/-- parse_check_payload (parsing.py lines 14-44): extract the source, then the
version, catching only KeyError and returning none for the version then. -/
def parseCheckPayload (p : Payload) :
    Except PyErr (List (String × String) × Option (List (String × String))) := do
  let sourceConfig ← extractSourceConfig p
  match extractVersionConfig p with
  | .error (.keyError _) => .ok (sourceConfig, none)
  | .error e => .error e
  | .ok v => .ok (sourceConfig, some v)

/-- parse_in_payload (parsing.py lines 47-76): extract the source and the
params, then the version, turning its KeyError into RuntimeError. -/
def parseInPayload (p : Payload) :
    Except PyErr (List (String × String) × List (String × String) × List (String × String)) := do
  let sourceConfig ← extractSourceConfig p
  let paramsConfig ← extractParamConfig p
  match extractVersionConfig p with
  | .error (.keyError _) => .error (.runtimeError "Could not extract version from payload")
  | .error e => .error e
  | .ok versionConfig => .ok (sourceConfig, versionConfig, paramsConfig)

/-- parse_out_payload (parsing.py lines 79-104): extract the source and the
params; the version key is not consulted. -/
def parseOutPayload (p : Payload) :
    Except PyErr (List (String × String) × List (String × String)) := do
  let sourceConfig ← extractSourceConfig p
  let paramsConfig ← extractParamConfig p
  .ok (sourceConfig, paramsConfig)

/-! ### Properties of the decimal conversion -/

theorem decDigitVal_digitChar (d : Nat) (h : d < 10) : decDigitVal (digitChar d) = some d := by
  interval_cases d <;> rfl

theorem digitChar_ne_dash (d : Nat) : digitChar d ≠ '-' := by
  unfold digitChar
  split <;> decide

theorem parseNatAux_append (xs ys : List Char) (acc : Nat) :
    parseNatAux (xs ++ ys) acc =
      match parseNatAux xs acc with
      | some a => parseNatAux ys a
      | none => none := by
  induction xs generalizing acc with
  | nil => rfl
  | cons c cs ih =>
    simp only [List.cons_append, parseNatAux]
    cases decDigitVal c with
    | none => rfl
    | some d => exact ih _

theorem parseNatAux_reverse_natDecimalAux (fuel : Nat) :
    ∀ n acc, n ≤ fuel →
      parseNatAux (natDecimalAux fuel n).reverse acc =
        some (acc * 10 ^ (natDecimalAux fuel n).length + n) := by
  induction fuel with
  | zero =>
    intro n acc h
    interval_cases n
    simp [natDecimalAux, parseNatAux]
  | succ f ih =>
    intro n acc _h
    by_cases hn : n = 0
    · subst hn
      simp [natDecimalAux, parseNatAux]
    · have hrec : n / 10 ≤ f := by omega
      simp only [natDecimalAux, if_neg hn, List.reverse_cons]
      rw [parseNatAux_append, ih (n / 10) acc hrec]
      simp only [parseNatAux, decDigitVal_digitChar (n % 10) (Nat.mod_lt n (by omega)),
        List.length_cons]
      have hdm : 10 * (n / 10) + n % 10 = n := Nat.div_add_mod n 10
      have hring : (acc * 10 ^ (natDecimalAux f (n / 10)).length + n / 10) * 10 + n % 10 =
          acc * 10 ^ ((natDecimalAux f (n / 10)).length + 1) + (10 * (n / 10) + n % 10) := by
        ring
      rw [hring, hdm]

theorem natDecimalAux_ne_nil (fuel n : Nat) (hf : n ≤ fuel) (hn : n ≠ 0) :
    natDecimalAux fuel n ≠ [] := by
  cases fuel with
  | zero => omega
  | succ f => simp [natDecimalAux, hn]

theorem natDecimalAux_digits (fuel : Nat) :
    ∀ n c, c ∈ natDecimalAux fuel n → c ≠ '-' := by
  induction fuel with
  | zero => intro n c hc; simp [natDecimalAux] at hc
  | succ f ih =>
    intro n c hc
    by_cases hn : n = 0
    · subst hn; simp [natDecimalAux] at hc
    · simp only [natDecimalAux, if_neg hn, List.mem_cons] at hc
      rcases hc with h | h
      · subst h; exact digitChar_ne_dash _
      · exact ih _ _ h

theorem parseNat_natToDecimal (n : Nat) : parseNatAux (natToDecimal n).data 0 = some n := by
  by_cases hn : n = 0
  · subst hn; rfl
  · have := parseNatAux_reverse_natDecimalAux n n 0 (le_refl n)
    simp only [natToDecimal, if_neg hn]
    simpa using this

theorem natToDecimal_data_cons (n : Nat) :
    ∃ c cs, (natToDecimal n).data = c :: cs ∧ c ≠ '-' := by
  by_cases hn : n = 0
  · subst hn
    exact ⟨'0', [], rfl, by decide⟩
  · have hne : natDecimalAux n n ≠ [] := natDecimalAux_ne_nil _ _ (le_refl _) hn
    have hdata : (natToDecimal n).data = (natDecimalAux n n).reverse := by
      simp [natToDecimal, if_neg hn]
    rcases hcons : (natToDecimal n).data with _ | ⟨c, cs⟩
    · exfalso
      rw [hdata] at hcons
      simp only [List.reverse_eq_nil_iff] at hcons
      exact hne hcons
    · refine ⟨c, cs, rfl, ?_⟩
      have hmem : c ∈ (natDecimalAux n n).reverse := by
        rw [← hdata, hcons]; exact List.mem_cons_self _ _
      exact natDecimalAux_digits n n c (by simpa using hmem)

/-- Round trip of the embedded Python decimal conversion: int(str(i)) = i. -/
theorem pyIntOfString_pyStrOfInt (i : Int) : pyIntOfString (pyStrOfInt i) = some i := by
  obtain ⟨c, cs, hcons, hcdash⟩ := natToDecimal_data_cons i.natAbs
  have hparse := parseNat_natToDecimal i.natAbs
  rw [hcons] at hparse
  by_cases hneg : i < 0
  · have hdata : (pyStrOfInt i).data = '-' :: c :: cs := by
      simp only [pyStrOfInt, if_pos hneg]
      show ("-".data ++ (natToDecimal i.natAbs).data) = _
      rw [hcons]
      rfl
    simp only [pyIntOfString, hdata, if_pos rfl, List.isEmpty_cons, Bool.false_eq_true,
      if_false, hparse, Option.map_some]
    show some (-(i.natAbs : Int)) = some i
    congr 1
    omega
  · have hdata : (pyStrOfInt i).data = c :: cs := by
      simp only [pyStrOfInt, if_neg hneg]
      exact hcons
    simp only [pyIntOfString, hdata, if_neg hcdash, hparse, Option.map_some]
    show some ((i.natAbs : Int)) = some i
    congr 1
    omega

/-! ## Claims -/

/-- C3: for a TriggerOnChangeConcourseResource whose fetch_latest_version
returns latest, fetch_new_versions returns exactly [latest] with no previous
version, exactly [previous] when latest equals the previous version, and
exactly [previous, latest] in that order otherwise. -/
theorem trigger_on_change_check_policy {V : Type} (eqFn : V → V → Bool) (latest p : V) :
    triggerOnChangeFetchNewVersions eqFn latest none = [latest] ∧
    (eqFn latest p = true → triggerOnChangeFetchNewVersions eqFn latest (some p) = [p]) ∧
    (eqFn latest p = false →
      triggerOnChangeFetchNewVersions eqFn latest (some p) = [p, latest]) := by
  refine ⟨rfl, fun h => ?_, fun h => ?_⟩ <;> simp [triggerOnChangeFetchNewVersions, h]

theorem trigger_on_change_check_policy_witness :
    triggerOnChangeFetchNewVersions (fun a b : Nat => a == b) 7 none = [7] ∧
    triggerOnChangeFetchNewVersions (fun a b : Nat => a == b) 7 (some 7) = [7] ∧
    triggerOnChangeFetchNewVersions (fun a b : Nat => a == b) 8 (some 7) = [7, 8] :=
  ⟨(trigger_on_change_check_policy (fun a b : Nat => a == b) 7 7).1,
    (trigger_on_change_check_policy (fun a b : Nat => a == b) 7 7).2.1 (by decide),
    (trigger_on_change_check_policy (fun a b : Nat => a == b) 8 7).2.2 (by decide)⟩

/-- C6: for a combined resource type built by combine_resource_types, a source
config lacking the flag key raises ValueError, a config whose flag value is
not in the resource mapping raises KeyError (a distinguishable kind), and any
direct instantiation of the pseudo-type raises TypeError unconditionally. -/
theorem combine_resource_types_error_kinds (resources : List (String × String))
    (paramKey : String) (config : List (String × String)) (value : String)
    (rest : List (String × String)) (clsName : String) :
    (popKey paramKey config = none →
      fromResourceConfig resources paramKey config =
        .error (.valueError ("Missing flag: " ++ paramKey))) ∧
    (popKey paramKey config = some (value, rest) → resources.lookup value = none →
      fromResourceConfig resources paramKey config =
        .error (.keyError ("Could not find resource matching " ++ value))) ∧
    (∀ m1 m2 : String, PyErr.valueError m1 ≠ PyErr.keyError m2) ∧
    pseudoResourceNew clsName =
      .error (.typeError ("Cannot instantiate a " ++ clsName ++ " type")) := by
  refine ⟨fun h => ?_, fun h1 h2 => ?_, ⟨fun m1 m2 h => PyErr.noConfusion h, rfl⟩⟩
  · simp [fromResourceConfig, h]
  · simp [fromResourceConfig, h1, h2]

theorem combine_resource_types_error_kinds_witness :
    fromResourceConfig [("A", "ResourceA"), ("B", "ResourceB")] "resource"
        [("uri", "git://x")] = .error (.valueError "Missing flag: resource") ∧
    fromResourceConfig [("A", "ResourceA"), ("B", "ResourceB")] "resource"
        [("resource", "C"), ("uri", "git://x")] =
      .error (.keyError "Could not find resource matching C") ∧
    pseudoResourceNew "MultiResourceConcourseResource" =
      .error (.typeError "Cannot instantiate a MultiResourceConcourseResource type") :=
  ⟨(combine_resource_types_error_kinds [("A", "ResourceA"), ("B", "ResourceB")] "resource"
      [("uri", "git://x")] "" [] "X").1 (by decide),
    (combine_resource_types_error_kinds [("A", "ResourceA"), ("B", "ResourceB")] "resource"
      [("resource", "C"), ("uri", "git://x")] "C" [("uri", "git://x")] "X").2.1
      (by decide) (by decide),
    (combine_resource_types_error_kinds [] "" [] "" [] "MultiResourceConcourseResource").2.2.2⟩

/-- C7: an absent source key makes all three payload parsers fail; an absent
version key makes parse_in_payload fail but lets parse_check_payload succeed
with none (not an empty dict) for the version; an absent params key never
fails and yields an empty mapping in both the in and the out parser. -/
theorem wire_parsing_required_keys :
    (∀ v pr, parseCheckPayload ⟨.absent, v, pr⟩ =
        .error (.runtimeError "Could not extract source from payload") ∧
      parseInPayload ⟨.absent, v, pr⟩ =
        .error (.runtimeError "Could not extract source from payload") ∧
      parseOutPayload ⟨.absent, v, pr⟩ =
        .error (.runtimeError "Could not extract source from payload")) ∧
    (∀ s pr, parseCheckPayload ⟨.obj s, .absent, pr⟩ = .ok (s, none)) ∧
    (∀ s pr, ∃ e, parseInPayload ⟨.obj s, .absent, pr⟩ = .error e) ∧
    (∀ p : Payload, extractParamConfig ⟨p.source, p.version, .absent⟩ = .ok []) ∧
    (∀ s v, parseInPayload ⟨.obj s, .obj v, .absent⟩ = .ok (s, v, [])) ∧
    (∀ s ver, parseOutPayload ⟨.obj s, ver, .absent⟩ = .ok (s, [])) := by
  refine ⟨fun v pr => ⟨rfl, rfl, rfl⟩, fun s pr => rfl, fun s pr => ?_, fun p => rfl,
    fun s v => rfl, fun s ver => ?_⟩
  · cases pr with
    | absent => exact ⟨.runtimeError "Could not extract version from payload", rfl⟩
    | nullv => exact ⟨.attributeError "NoneType object has no attribute items", rfl⟩
    | obj entries => exact ⟨.runtimeError "Could not extract version from payload", rfl⟩
  · cases ver <;> rfl

/-- C8: a TypedVersion subclass whose class body declares no annotated fields
of its own (its annotations dict absent from vars(cls) or empty) raises
TypeError from __init_subclass__, at class-definition time. -/
theorem typedversion_subclass_without_fields_fails (ownAnnots : Option (List String))
    (h : ownAnnots.getD [] = []) :
    typedVersionInitSubclass ownAnnots =
      .error (.typeError "cannot instantiate dataclass TypedVersion without any fields") := by
  simp [typedVersionInitSubclass, h]

theorem typedversion_subclass_without_fields_fails_witness :
    typedVersionInitSubclass none =
      .error (.typeError "cannot instantiate dataclass TypedVersion without any fields") ∧
    typedVersionInitSubclass (some []) =
      .error (.typeError "cannot instantiate dataclass TypedVersion without any fields") :=
  ⟨typedversion_subclass_without_fields_fails none rfl,
    typedversion_subclass_without_fields_fails (some []) rfl⟩

/-- C9: MultiVersion defines __eq__ without __hash__, so its hash slot is set
to None and calling hash() on any instance raises TypeError, whatever hash
behaviour would otherwise be inherited; the base Version class, which defines
both methods, stays hashable. -/
theorem multiversion_unhashable (inheritedSlot : Bool) :
    pyHashCall (classHashSlot multiVersionClassBody inheritedSlot) =
      .error (.typeError "unhashable type") ∧
    pyHashCall (classHashSlot versionClassBody inheritedSlot) = .ok () := by
  exact ⟨rfl, rfl⟩

/-- C1 counterexample: the claim that two instances of distinct Version
subclasses with identical to_flat_dict output are never equal fails.  The
combination in Version.__hash__ is bitwise OR, so for hash values in which
the pair hash already covers the bits of both type hashes (here pair hash 3,
type hashes 1 and 2) the two instances hash identically and __eq__ returns
True even though the types and their hashes differ. -/
theorem version_cross_type_collision_counterexample :
    ("VersionA" : String) ≠ "VersionB" ∧
    (fun t : String => if t = "VersionA" then (1 : Int) else 2) "VersionA" ≠
      (fun t : String => if t = "VersionA" then (1 : Int) else 2) "VersionB" ∧
    versionHashPy (fun _ => (3 : Int)) (fun t => if t = "VersionA" then 1 else 2)
        "VersionA" [("ref", "abc")] =
      versionHashPy (fun _ => (3 : Int)) (fun t => if t = "VersionA" then 1 else 2)
        "VersionB" [("ref", "abc")] ∧
    versionEqPy (fun _ => (3 : Int)) (fun t => if t = "VersionA" then 1 else 2)
      "VersionA" [("ref", "abc")] "VersionB" [("ref", "abc")] = true := by
  refine ⟨by decide, by decide, by decide, by decide⟩

/-- C1 amended: two instances of distinct concrete Version subclasses with
identical flattened content are unequal exactly when the bitwise OR of the
pair hash with the respective type hashes yields different values; the OR
combination does not guarantee this, so cross-type collisions are possible. -/
theorem version_cross_type_eq_iff_or_hash (hashPairs : List (String × String) → Int)
    (hashType : String → Int) (ty1 ty2 : String) (flat : List (String × String)) :
    versionEqPy hashPairs hashType ty1 flat ty2 flat = true ↔
      Int.lor (hashPairs (sortFlatPairs flat)) (hashType ty1) =
        Int.lor (hashPairs (sortFlatPairs flat)) (hashType ty2) := by
  simp [versionEqPy, versionHashPy]

/-- Helper: the Python max fold returns a member of the iterated list that is
an upper bound of it. -/
theorem foldlMax_spec {V : Type} [LinearOrder V] :
    ∀ (xs : List V) (x : V),
      xs.foldl (fun a b => if a < b then b else a) x ∈ x :: xs ∧
      ∀ y ∈ x :: xs, y ≤ xs.foldl (fun a b => if a < b then b else a) x
  | [], x => by simp
  | z :: zs, x => by
    simp only [List.foldl_cons]
    by_cases hxz : x < z
    · rw [if_pos hxz]
      have ih := foldlMax_spec zs z
      refine ⟨List.mem_cons_of_mem x ih.1, fun y hy => ?_⟩
      rcases List.mem_cons.mp hy with h | hy2
      · subst h
        exact le_trans (le_of_lt hxz) (ih.2 z (List.mem_cons_self _ _))
      · exact ih.2 y hy2
    · rw [if_neg hxz]
      have ih := foldlMax_spec zs x
      refine ⟨?_, fun y hy => ?_⟩
      · rcases List.mem_cons.mp ih.1 with h | h
        · rw [h]
          exact List.mem_cons_self _ _
        · exact List.mem_cons_of_mem x (List.mem_cons_of_mem z h)
      · rcases List.mem_cons.mp hy with h | hy2
        · rw [h]
          exact ih.2 x (List.mem_cons_self _ _)
        · rcases List.mem_cons.mp hy2 with h | h
          · rw [h]
            exact le_trans (le_of_not_lt hxz) (ih.2 x (List.mem_cons_self _ _))
          · exact ih.2 y (List.mem_cons_of_mem x h)

/-- C4 counterexample: the claim that fetch_new_versions with a previous
version returns the fallback [previous] whenever no fetched version is
strictly greater fails on an empty fetched set: the ValueError from max() is
caught first and the empty list is returned, not [previous]. -/
theorem self_organising_empty_set_counterexample :
    selfOrganisingFetchNewVersions ([] : List Nat) (some 111) = [] ∧
    ([] : List Nat) ≠ [111] := by
  exact ⟨rfl, by decide⟩

/-- C4 amended: fetch_new_versions of a SelfOrganisingConcourseResource
returns [] whenever the fetched set is empty (with or without a previous
version); on a non-empty set it returns exactly the maximum when no previous
version is given, the sorted list of all fetched versions strictly greater
than the previous version when at least one exists, and [previous] as a
fallback when the set is non-empty but nothing is strictly greater. -/
theorem self_organising_check_policy {V : Type} [LinearOrder V] (all : List V) (p : V) :
    (all = [] → selfOrganisingFetchNewVersions all none = [] ∧
      selfOrganisingFetchNewVersions all (some p) = []) ∧
    (all ≠ [] → ∃ m, selfOrganisingFetchNewVersions all none = [m] ∧
      m ∈ all ∧ ∀ x ∈ all, x ≤ m) ∧
    ((∃ x ∈ all, p < x) →
      (selfOrganisingFetchNewVersions all (some p)).Sorted (· ≤ ·) ∧
      ∀ x, x ∈ selfOrganisingFetchNewVersions all (some p) ↔ x ∈ all ∧ p < x) ∧
    (all ≠ [] → (∀ x ∈ all, ¬ p < x) →
      selfOrganisingFetchNewVersions all (some p) = [p]) := by
  refine ⟨fun h => ?_, fun h => ?_, fun h => ?_, fun h hnone => ?_⟩
  · subst h
    exact ⟨rfl, rfl⟩
  · rcases all with _ | ⟨x, xs⟩
    · exact absurd rfl h
    · refine ⟨xs.foldl (fun a b => if a < b then b else a) x, rfl, ?_, ?_⟩
      · exact (foldlMax_spec xs x).1
      · exact (foldlMax_spec xs x).2
  · rcases all with _ | ⟨x, xs⟩
    · rcases h with ⟨y, hy, _⟩
      exact absurd hy (by simp)
    · obtain ⟨y, hy, hpy⟩ := h
      have hymem : y ∈ (x :: xs).filter (fun v => decide (p < v)) :=
        List.mem_filter.mpr ⟨hy, by simpa using hpy⟩
      have hne : ((x :: xs).filter (fun v => decide (p < v))).insertionSort (· ≤ ·) ≠ [] := by
        intro hcontra
        have : y ∈ ((x :: xs).filter (fun v => decide (p < v))).insertionSort (· ≤ ·) := by
          simpa using hymem
        rw [hcontra] at this
        exact absurd this (List.not_mem_nil y)
      have hempty :
          (((x :: xs).filter (fun v => decide (p < v))).insertionSort (· ≤ ·)).isEmpty
            = false := by
        rcases hsort : ((x :: xs).filter (fun v => decide (p < v))).insertionSort (· ≤ ·) with
          _ | ⟨a, as⟩
        · exact absurd hsort hne
        · rfl
      constructor
      · show (selfOrganisingFetchNewVersions (x :: xs) (some p)).Sorted (· ≤ ·)
        simp only [selfOrganisingFetchNewVersions, pyMax, hempty, Bool.false_eq_true, if_false]
        exact List.sorted_insertionSort _ _
      · intro z
        simp only [selfOrganisingFetchNewVersions, pyMax, hempty, Bool.false_eq_true, if_false]
        simp [List.mem_filter]
  · rcases all with _ | ⟨x, xs⟩
    · exact absurd rfl h
    · have hfilter : (x :: xs).filter (fun v => decide (p < v)) = [] := by
        rw [List.filter_eq_nil_iff]
        intro a ha
        simpa using hnone a ha
      simp [selfOrganisingFetchNewVersions, pyMax, hfilter]

theorem self_organising_check_policy_witness :
    (∃ m, selfOrganisingFetchNewVersions [111, 222, 333] none = [m] ∧
      m ∈ [111, 222, 333] ∧ ∀ x ∈ [111, 222, 333], x ≤ m) ∧
    ((selfOrganisingFetchNewVersions [111, 222, 333] (some 111)).Sorted (· ≤ ·) ∧
      ∀ x, x ∈ selfOrganisingFetchNewVersions [111, 222, 333] (some 111) ↔
        x ∈ [111, 222, 333] ∧ 111 < x) ∧
    selfOrganisingFetchNewVersions [111, 222, 333] (some 333) = [333] ∧
    selfOrganisingFetchNewVersions ([] : List Nat) (some 111) = [] :=
  ⟨(self_organising_check_policy [111, 222, 333] 111).2.1 (by decide),
    (self_organising_check_policy [111, 222, 333] 111).2.2.1 (by decide),
    (self_organising_check_policy [111, 222, 333] 333).2.2.2 (by decide) (by decide),
    ((self_organising_check_policy ([] : List Nat) 111).1 rfl).2⟩

/-- C5: two MultiVersion instances whose sub-version sets are equal as sets
(modelled as lists that are permutations of each other, the iteration orders
of equal sets) flatten to identical single-key mappings, because the
sub-versions are sorted by their natural ordering before JSON encoding. -/
theorem multiversion_flatten_deterministic {V : Type} [LinearOrder V]
    (subFlat : V → List (String × String)) (key : String) (l1 l2 : List V)
    (h : l1.Perm l2) :
    multiVersionToFlatDict key subFlat l1 = multiVersionToFlatDict key subFlat l2 := by
  have hsorted : l1.insertionSort (· ≤ ·) = l2.insertionSort (· ≤ ·) :=
    List.eq_of_perm_of_sorted
      (((List.perm_insertionSort _ l1).trans h).trans (List.perm_insertionSort _ l2).symm)
      (List.sorted_insertionSort _ l1) (List.sorted_insertionSort _ l2)
  simp [multiVersionToFlatDict, multiVersionSubData, hsorted]

theorem multiversion_flatten_deterministic_witness :
    multiVersionToFlatDict "versions" (fun n : Nat => [("n", natToDecimal n)]) [2, 1] =
      multiVersionToFlatDict "versions" (fun n : Nat => [("n", natToDecimal n)]) [1, 2] :=
  multiversion_flatten_deterministic (fun n : Nat => [("n", natToDecimal n)]) "versions"
    [2, 1] [1, 2] (by decide)

/-- Helper: attribute resolution skips every class whose own dict lacks the
registry binding. -/
theorem resolveRegAddr_append_of_none (ownRegAddr : String → Option Nat)
    (pre tail : List String) (h : ∀ c ∈ pre, ownRegAddr c = none) :
    resolveRegAddr ownRegAddr (pre ++ tail) = resolveRegAddr ownRegAddr tail := by
  induction pre with
  | nil => rfl
  | cons c cs ih =>
    simp only [List.cons_append, resolveRegAddr, h c (List.mem_cons_self _ _)]
    exact ih (fun d hd => h d (List.mem_cons_of_mem c hd))

/-- Helper: reading a heap cell immediately after writing it. -/
theorem heapGet_heapSet (h : RegHeap) (a : Nat) (r : Registry) :
    heapGet (heapSet h a r) a = r := by
  simp [heapGet, heapSet, List.lookup]

/-- C10: the flatten registry is one shared mutable mapping: for TypedVersion
subclasses S1 and S2 (classes whose own dict does not bind the registry and
whose MRO reaches TypedVersion, which binds it), registering a flatten
function for a type through S1 succeeds and makes the lookup of that type
through S2, and through TypedVersion itself, return that same function; no
subclass receives an independent copy of the registry. -/
theorem typedversion_registries_shared (ownRegAddr : String → Option Nat)
    (pre1 pre2 : List String) (tvAddr : Nat) (h : RegHeap) (ty : String) (f : Nat)
    (restMro : List String)
    (hTV : ownRegAddr "TypedVersion" = some tvAddr)
    (h1 : ∀ c ∈ pre1, ownRegAddr c = none)
    (h2 : ∀ c ∈ pre2, ownRegAddr c = none) :
    ∃ heap2, registerFlattenVia ownRegAddr (pre1 ++ ["TypedVersion"]) h ty f = some heap2 ∧
      lookupFlattenVia ownRegAddr (pre2 ++ ["TypedVersion"]) heap2 (ty :: restMro) = some f ∧
      lookupFlattenVia ownRegAddr ["TypedVersion"] heap2 (ty :: restMro) = some f := by
  have hres1 : resolveRegAddr ownRegAddr (pre1 ++ ["TypedVersion"]) = some tvAddr := by
    rw [resolveRegAddr_append_of_none ownRegAddr pre1 _ h1]
    simp [resolveRegAddr, hTV]
  have hres2 : resolveRegAddr ownRegAddr (pre2 ++ ["TypedVersion"]) = some tvAddr := by
    rw [resolveRegAddr_append_of_none ownRegAddr pre2 _ h2]
    simp [resolveRegAddr, hTV]
  have hresTV : resolveRegAddr ownRegAddr ["TypedVersion"] = some tvAddr := by
    simp [resolveRegAddr, hTV]
  refine ⟨heapSet h tvAddr (regInsert (heapGet h tvAddr) ty f), ?_, ?_, ?_⟩
  · simp [registerFlattenVia, hres1]
  · simp [lookupFlattenVia, hres2, heapGet_heapSet, regInsert, regLookup, List.lookup]
  · simp [lookupFlattenVia, hresTV, heapGet_heapSet, regInsert, regLookup, List.lookup]

theorem typedversion_registries_shared_witness :
    ∃ heap2,
      registerFlattenVia
        (fun c => if c = "TypedVersion" then some 0 else none)
        (["GitCommitVersion"] ++ ["TypedVersion"]) ⟨[]⟩ "datetime" 7 = some heap2 ∧
      lookupFlattenVia (fun c => if c = "TypedVersion" then some 0 else none)
        (["OtherVersion"] ++ ["TypedVersion"]) heap2 ("datetime" :: ["object"]) = some 7 ∧
      lookupFlattenVia (fun c => if c = "TypedVersion" then some 0 else none)
        ["TypedVersion"] heap2 ("datetime" :: ["object"]) = some 7 :=
  typedversion_registries_shared (fun c => if c = "TypedVersion" then some 0 else none)
    ["GitCommitVersion"] ["OtherVersion"] 0 ⟨[]⟩ "datetime" 7 ["object"]
    (by decide) (by decide) (by decide)

/-- Helper: the registered un-flatten function inverts the registered flatten
function on any value that is an instance of the declared type. -/
theorem unflatten_flatten_object (v : PyVal) (ty : PyType) (h : hasPyType v ty = true) :
    unflattenObject ty (flattenObject v) = .ok v := by
  cases v with
  | vstr s => cases ty <;> simp_all [hasPyType, flattenObject, unflattenObject]
  | vbool b =>
    cases ty <;> simp_all [hasPyType]
    cases b <;> rfl
  | vint n =>
    cases ty <;> simp_all [hasPyType]
    simp [flattenObject, unflattenObject, pyIntOfString_pyStrOfInt]
  | vdatetime ts =>
    cases ty <;> simp_all [hasPyType]
    simp [flattenObject, unflattenObject, pyIntOfString_pyStrOfInt]
  | venum e m =>
    cases ty with
    | enumT e2 members =>
      simp only [hasPyType, Bool.and_eq_true, beq_iff_eq] at h
      obtain ⟨rfl, hmem⟩ := h
      have hmem2 : m ∈ members := by simpa using hmem
      simp [flattenObject, unflattenObject, hmem, hmem2]
    | strT => simp_all [hasPyType]
    | boolT => simp_all [hasPyType]
    | intT => simp_all [hasPyType]
    | datetimeT => simp_all [hasPyType]

/-- Helper: looking a field name up in the keyed projection of a declaration
list with distinct names finds the projection of that field. -/
theorem lookup_map_of_nodup {γ δ : Type} (l : List (String × γ)) (g : String × γ → δ)
    (hnodup : (l.map Prod.fst).Nodup) :
    ∀ e ∈ l, (l.map (fun x => (x.1, g x))).lookup e.1 = some (g e) := by
  induction l with
  | nil => intro e he; cases he
  | cons a as ih =>
    intro e he
    rw [List.map_cons, List.nodup_cons] at hnodup
    rcases List.mem_cons.mp he with h | h
    · subst h
      simp [List.lookup]
    · have hnea : (e.1 == a.1) = false := by
        rw [beq_eq_false_iff_ne]
        intro hcontra
        exact hnodup.1 (hcontra ▸ List.mem_map_of_mem Prod.fst h)
      simp only [List.map_cons, List.lookup, hnea]
      exact ih hnodup.2 e h

/-- Helper: to_flat_dict of an instance whose attribute names are all public
flattens every attribute in order. -/
theorem tvToFlatDict_of_public (fs : List (String × PyVal))
    (hpub : ∀ e ∈ fs, pyStartsWithUnderscore e.1 = false) :
    tvToFlatDict ⟨fs⟩ = fs.map (fun kv => (kv.1, flattenObject kv.2)) := by
  induction fs with
  | nil => rfl
  | cons kv fs ih =>
    simp only [tvToFlatDict, List.filterMap_cons, hpub kv (List.mem_cons_self _ _),
      Bool.false_eq_true, if_false]
    exact congrArg _ (ih (fun e he => hpub e (List.mem_cons_of_mem kv he)))

/-- Helper: un-flattening the flattened declaration list recovers the original
keyword arguments. -/
theorem tvUnflattenKwargs_aligned (cls : TVClass) :
    ∀ l : List (String × PyType × PyVal),
      (∀ e ∈ l, cls.annots.lookup e.1 = some e.2.1) →
      (∀ e ∈ l, hasPyType e.2.2 e.2.1 = true) →
      tvUnflattenKwargs cls (l.map (fun e => (e.1, flattenObject e.2.2))) =
        .ok (l.map (fun e => (e.1, e.2.2)))
  | [], _, _ => rfl
  | e :: es, hl, ht => by
    simp only [List.map_cons, tvUnflattenKwargs, hl e (List.mem_cons_self _ _)]
    rw [unflatten_flatten_object e.2.2 e.2.1 (ht e (List.mem_cons_self _ _))]
    rw [tvUnflattenKwargs_aligned cls es (fun d hd => hl d (List.mem_cons_of_mem e hd))
      (fun d hd => ht d (List.mem_cons_of_mem e hd))]
    rfl

/-- Helper: the dataclass initialiser applied to exactly the declared fields
succeeds and rebuilds the instance. -/
theorem dataclassInit_aligned (decl : List (String × PyType × PyVal))
    (hnodup : (decl.map Prod.fst).Nodup) :
    dataclassInit (tvClassOf decl) (decl.map (fun e => (e.1, e.2.2))) =
      .ok (tvInstanceOf decl) := by
  have hkw : ∀ e ∈ decl, (decl.map (fun x => (x.1, x.2.2))).lookup e.1 = some e.2.2 :=
    lookup_map_of_nodup decl (fun x => x.2.2) hnodup
  have han : ∀ e ∈ decl, (decl.map (fun x => (x.1, x.2.1))).lookup e.1 = some e.2.1 :=
    lookup_map_of_nodup decl (fun x => x.2.1) hnodup
  have hcond : (((tvClassOf decl).annots.all
        fun a => ((decl.map (fun e => (e.1, e.2.2))).lookup a.1).isSome) &&
      ((decl.map (fun e => (e.1, e.2.2))).all
        fun kv => ((tvClassOf decl).annots.lookup kv.1).isSome)) = true := by
    rw [Bool.and_eq_true]
    constructor
    · rw [List.all_eq_true]
      intro a ha
      obtain ⟨x, hx, rfl⟩ := List.mem_map.mp ha
      rw [hkw x hx]
      rfl
    · rw [List.all_eq_true]
      intro kv hkv
      obtain ⟨x, hx, rfl⟩ := List.mem_map.mp hkv
      show ((tvClassOf decl).annots.lookup x.1).isSome = true
      rw [show (tvClassOf decl).annots = decl.map (fun e => (e.1, e.2.1)) from rfl, han x hx]
      rfl
  simp only [dataclassInit, hcond, if_true]
  refine congrArg (fun l => Except.ok (TVInstance.mk l)) ?_
  show (decl.map (fun e => (e.1, e.2.1))).map
      (fun a => (a.1, ((decl.map (fun e => (e.1, e.2.2))).lookup a.1).getD (.vstr ""))) =
    decl.map (fun e => (e.1, e.2.2))
  rw [List.map_map]
  refine List.map_congr_left ?_
  intro x hx
  show (x.1, ((decl.map (fun e => (e.1, e.2.2))).lookup x.1).getD (.vstr "")) = (x.1, x.2.2)
  rw [hkw x hx]
  rfl

/-- C2: reconstruction from the flattened form is the identity up to version
equality.  For the default string-based implementation, from_flat_dict applied
to to_flat_dict yields an instance of the same subclass with an identical flat
dict, hence equal under Version.__eq__ whatever the primitive hash functions;
for the TypedVersion variant, dispatching through the registered flatten and
un-flatten functions reconstructs every faithful instance exactly. -/
theorem version_from_flat_dict_roundtrip :
    (∀ (hashPairs : List (String × String) → Int) (hashType : String → Int)
        (v : DefaultVersion),
      defaultVersionEq hashPairs hashType
        (defaultFromFlatDict v.tyName (defaultToFlatDict v)) v = true) ∧
    (∀ decl : List (String × PyType × PyVal),
      (decl.map Prod.fst).Nodup →
      (∀ e ∈ decl, pyStartsWithUnderscore e.1 = false) →
      (∀ e ∈ decl, hasPyType e.2.2 e.2.1 = true) →
      tvFromFlatDict (tvClassOf decl) (tvToFlatDict (tvInstanceOf decl)) =
        .ok (tvInstanceOf decl)) := by
  constructor
  · intro hashPairs hashType v
    have hflat : defaultToFlatDict ⟨v.tyName, defaultToFlatDict v⟩ = defaultToFlatDict v := by
      simp [defaultToFlatDict, List.filter_filter]
    simp [defaultVersionEq, defaultFromFlatDict, versionEqPy, hflat]
  · intro decl hnodup hpub hty
    have h1 : tvToFlatDict (tvInstanceOf decl) =
        decl.map (fun e => (e.1, flattenObject e.2.2)) := by
      have hp : ∀ e ∈ decl.map (fun e => (e.1, e.2.2)),
          pyStartsWithUnderscore e.1 = false := by
        intro e he
        obtain ⟨x, hx, rfl⟩ := List.mem_map.mp he
        exact hpub x hx
      rw [show tvInstanceOf decl = ⟨decl.map (fun e => (e.1, e.2.2))⟩ from rfl,
        tvToFlatDict_of_public _ hp, List.map_map]
      simp [Function.comp]
    have hlookupA : ∀ e ∈ decl, (tvClassOf decl).annots.lookup e.1 = some e.2.1 :=
      lookup_map_of_nodup decl (fun x => x.2.1) hnodup
    have h2 := tvUnflattenKwargs_aligned (tvClassOf decl) decl hlookupA hty
    have h3 := dataclassInit_aligned decl hnodup
    rw [tvFromFlatDict, h1, h2]
    simpa using h3

theorem version_from_flat_dict_roundtrip_witness :
    defaultVersionEq (fun l => (l.length : Int)) (fun t => (t.length : Int))
      (defaultFromFlatDict (DefaultVersion.mk "GitCommitVersion"
          [("commit_hash", "abcdef"), ("_private", "x")]).tyName
        (defaultToFlatDict (DefaultVersion.mk "GitCommitVersion"
          [("commit_hash", "abcdef"), ("_private", "x")])))
      (DefaultVersion.mk "GitCommitVersion" [("commit_hash", "abcdef"), ("_private", "x")])
      = true ∧
    tvFromFlatDict
      (tvClassOf [("commit_hash", .strT, .vstr "abcdef"),
        ("date", .datetimeT, .vdatetime 1577881800),
        ("is_merge", .boolT, .vbool false)])
      (tvToFlatDict (tvInstanceOf [("commit_hash", .strT, .vstr "abcdef"),
        ("date", .datetimeT, .vdatetime 1577881800),
        ("is_merge", .boolT, .vbool false)])) =
      .ok (tvInstanceOf [("commit_hash", .strT, .vstr "abcdef"),
        ("date", .datetimeT, .vdatetime 1577881800),
        ("is_merge", .boolT, .vbool false)]) :=
  ⟨version_from_flat_dict_roundtrip.1 (fun l => (l.length : Int)) (fun t => (t.length : Int))
      (DefaultVersion.mk "GitCommitVersion" [("commit_hash", "abcdef"), ("_private", "x")]),
    version_from_flat_dict_roundtrip.2
      [("commit_hash", .strT, .vstr "abcdef"),
        ("date", .datetimeT, .vdatetime 1577881800),
        ("is_merge", .boolT, .vbool false)]
      (by decide) (by decide) (by decide)⟩

end ConcourseTools
